import Mathlib

/-!
# Verification of the financial-document download plan builder

A shallow embedding of `scripts/build_financial_download_plan.py` and proofs
about it.  Python strings are modelled as Lean `String` (a wrapper around
`List Char`), Python cell values (which may be `None`, a string or an int) as
the inductive type `Value`, pandas rows as functions from column names to
optional cell values, and the TOML configuration as structures with optional
fields mirroring `dict.get` defaulting.  Fallible code returns `Except`.
-/

/-! ## Python text primitives -/

/-- The characters removed from both ends by Python `str.strip()`. -/
def stripChars (cs : List Char) : List Char :=
  ((cs.dropWhile Char.isWhitespace).reverse.dropWhile Char.isWhitespace).reverse

/-- Python `str.strip()`. -/
def pyStrip (s : String) : String := String.mk (stripChars s.data)

/-- Python `str.lower()` (ASCII case folding suffices for the data involved). -/
def pyLower (s : String) : String := String.mk (s.data.map Char.toLower)

/-- Python `str.upper()`. -/
def pyUpper (s : String) : String := String.mk (s.data.map Char.toUpper)

/-- Value of a decimal digit string (underscores already removed):
left fold accumulating base-10 digits, `'0'` having code point 48. -/
def digitsToNat (cs : List Char) : Nat :=
  cs.foldl (fun a c => 10 * a + (c.toNat - 48)) 0

/-- Decimal digits of a natural number, most significant first.
Fuel-structured so that the kernel can evaluate it. -/
def natToDigitsAux : Nat → Nat → List Char
  | 0, _ => []
  | fuel + 1, n =>
    if n < 10 then [Nat.digitChar n]
    else natToDigitsAux fuel (n / 10) ++ [Nat.digitChar (n % 10)]

/-- Decimal digits of a natural number, most significant first. -/
def natToDigits (n : Nat) : List Char := natToDigitsAux (n + 1) n

/-- Python `str(int)`: decimal representation, with a leading minus sign for
negative values. -/
def pyStrOfInt (n : Int) : String :=
  if n < 0 then String.mk ('-' :: natToDigits n.natAbs)
  else String.mk (natToDigits n.natAbs)

/-- Helper for `pyDigitsOk`: checks the remaining characters, remembering the
previous character so that an underscore is accepted only between digits. -/
def pyDigitsOkAux : Char → List Char → Bool
  | prev, [] => prev.isDigit
  | prev, c :: rest =>
    if c = '_' then prev.isDigit && pyDigitsOkAux c rest
    else c.isDigit && pyDigitsOkAux c rest

/-- Whether a character list is a valid Python `int()` digit sequence:
non-empty decimal digits, with single underscores allowed between digits. -/
def pyDigitsOk : List Char → Bool
  | [] => false
  | c :: rest => c.isDigit && pyDigitsOkAux c rest

/-- Value of a Python digit group, ignoring grouping underscores. -/
def digitsValue (cs : List Char) : Nat :=
  digitsToNat (cs.filter (fun c => c ≠ '_'))

/-- Python `int(text)` on a stripped character list: an optional sign followed
by digits; anything else raises `ValueError`, modelled as `none`. -/
def pyIntOfChars (cs : List Char) : Option Int :=
  match cs with
  | [] => none
  | c :: rest =>
    if c = '-' then
      if pyDigitsOk rest then some (-(digitsValue rest : Int)) else none
    else if c = '+' then
      if pyDigitsOk rest then some ((digitsValue rest : Int)) else none
    else
      if pyDigitsOk (c :: rest) then some ((digitsValue (c :: rest) : Int)) else none

/-- Python `int(text)` for strings: `int()` strips surrounding whitespace
itself, then parses an optionally signed digit sequence. -/
def pyInt (s : String) : Option Int := pyIntOfChars (stripChars s.data)

/-! ## Cell values and rows -/

/-- A pandas cell value as seen by the plan builder: missing (`None`/`NaN`),
a string, or an integer. -/
inductive Value where
  | vNone : Value
  | vStr : String → Value
  | vInt : Int → Value
deriving DecidableEq, Repr

/-- Python `str(value)` on a cell value. -/
def pyValueStr : Value → String
  | .vNone => "None"
  | .vStr s => s
  | .vInt n => pyStrOfInt n

/-- Python truthiness of a cell value (`None`, `""` and `0` are falsy). -/
def valueTruthy : Value → Bool
  | .vNone => false
  | .vStr s => s != ""
  | .vInt n => n != 0

/-- A pandas row: a function from column name to the cell value, `none` when
the column is absent.  `row.get(col)` is `(row col).getD .vNone`;
`row.get(col, "")` is `(row col).getD (.vStr "")`. -/
def Record := String → Option Value

/-- Build a row from an association list of columns. -/
def recordOf (fields : List (String × Value)) : Record := fun c => fields.lookup c

/-! ## parse_year -/

/-- The year-parser's rejected tokens (`{"nan", "na", "none", "-"}`). -/
def yearTokens : List String := ["nan", "na", "none", "-"]

/-- `parse_year` from the script: parse year-like values such as `2021`,
`'2021'`, `'2021.0'`; `None`, blanks, the tokens and out-of-range values give
no result. -/
def parse_year (value : Value) : Option Int :=
  match value with
  | .vNone => none
  | _ =>
    let text := pyStrip (pyValueStr value)
    if text = "" ∨ pyLower text ∈ yearTokens then none
    else
      let text2 := if List.isSuffixOf ['.', '0'] text.data
        then String.mk (text.data.dropLast.dropLast) else text
      match pyInt text2 with
      | none => none
      | some year => if 1900 ≤ year ∧ year ≤ 2100 then some year else none

/-- Python truthiness of an optional year (`if year:`). -/
def truthyYear : Option Int → Bool
  | none => false
  | some y => y != 0

/-- The numeric shapes Python `int()` accepts once its own stripping is done:
an optional sign followed by a non-empty, underscore-grouped digit string,
evaluating to `y`. -/
def signedDigits (cs : List Char) (y : Int) : Prop :=
  ∃ digits, pyDigitsOk digits = true ∧
    (((cs = digits ∨ cs = '+' :: digits) ∧ y = (digitsValue digits : Int))
      ∨ (cs = '-' :: digits ∧ y = -(digitsValue digits : Int)))

/-- The string cells the year parser can extract the value `y` from: after
trimming, the text is non-blank, is not one of the rejected tokens
(case-insensitively), and — after removing a trailing `.0` if present —
`int()` sees a signed digit string with value `y`.  Any other text is
non-numeric to the parser. -/
def pyNumericStr (s : String) (y : Int) : Prop :=
  stripChars s.data ≠ []
    ∧ pyLower (String.mk (stripChars s.data)) ∉ yearTokens
    ∧ ∃ core : List Char,
        (stripChars s.data = core ∨ stripChars s.data = core ++ ['.', '0'])
        ∧ signedDigits (stripChars core) y

/-! ## Configuration -/

/-- Python `f"{offset:+d}"`: the offset with an explicit sign. -/
def fmtSigned (o : Int) : String :=
  if 0 ≤ o then "+" ++ pyStrOfInt o else pyStrOfInt o

/-- One per-cohort anchor-strategy configuration table (`[defaulters]` or
`[non_defaulters]`); `none` fields model absent keys. -/
structure AnchorCfg where
  anchor_mode : Option String := none
  fixed_anchor_fy : Value := .vNone
  anchor_column : Option String := none
  fy_before_default_column : Option String := none
  default_year_column : Option String := none
  default_year_offset : Option Int := none
  sector_aliases : List (String × String) := []

/-- The `[general]` configuration table. -/
structure GeneralCfg where
  lookback_years : Option Int := none
  default_anchor_fy : Option Int := none
  year_order : Option String := none

/-- The `[sources]` configuration table. -/
structure SourcesCfg where
  listed_cin_prefixes : Option (List String) := none
  priority_listed : Option (List String) := none
  priority_unlisted : Option (List String) := none

/-- The `[documents]` configuration table. -/
structure DocsCfg where
  required : Option (List String) := none
  optional : Option (List String) := none

/-- The whole configuration; an absent table behaves as a table with every
key absent, matching `config.get(section, {})`. -/
structure Config where
  general : GeneralCfg := {}
  defaulters : AnchorCfg := {}
  non_defaulters : AnchorCfg := {}
  sources : SourcesCfg := {}
  documents : DocsCfg := {}

/-! ## Anchor resolvers -/

/-- `infer_defaulter_anchor` from the script. -/
def infer_defaulter_anchor (row : Record) (cfg : AnchorCfg) (fallback_anchor : Int) :
    Int × String :=
  let mode := pyLower (pyStrip (cfg.anchor_mode.getD "fy_before_default_or_default_minus_one"))
  if mode = "fixed_year" then
    let year := parse_year cfg.fixed_anchor_fy
    if truthyYear year then (year.getD 0, "fixed_year")
    else (fallback_anchor, "fallback_default_anchor_fy")
  else if mode = "column" then
    let col := cfg.anchor_column.getD "anchor_fy"
    let year := parse_year ((row col).getD .vNone)
    if truthyYear year then (year.getD 0, col)
    else (fallback_anchor, "fallback_default_anchor_fy")
  else
    let fy_col := cfg.fy_before_default_column.getD "fy_before_default"
    let default_col := cfg.default_year_column.getD "default_year"
    let offset := cfg.default_year_offset.getD (-1)
    let year := parse_year ((row fy_col).getD .vNone)
    if truthyYear year then (year.getD 0, fy_col)
    else
      let default_year := parse_year ((row default_col).getD .vNone)
      if truthyYear default_year then
        (default_year.getD 0 + offset, default_col ++ fmtSigned offset)
      else (fallback_anchor, "fallback_default_anchor_fy")

/-- `infer_non_defaulter_anchor` from the script. -/
def infer_non_defaulter_anchor (row : Record) (cfg : AnchorCfg) (fallback_anchor : Int)
    (sector_medians : List (String × Int)) (global_median : Int) : Int × String :=
  let mode := pyLower (pyStrip (cfg.anchor_mode.getD "sector_median_from_defaulters"))
  if mode = "fixed_year" then
    let year := parse_year cfg.fixed_anchor_fy
    if truthyYear year then (year.getD 0, "fixed_year")
    else (fallback_anchor, "fallback_default_anchor_fy")
  else if mode = "column" then
    let col := cfg.anchor_column.getD "anchor_fy"
    let year := parse_year ((row col).getD .vNone)
    if truthyYear year then (year.getD 0, col)
    else (fallback_anchor, "fallback_default_anchor_fy")
  else if mode = "global_median_from_defaulters" then
    (global_median, "global_median_from_defaulters")
  else
    let raw_sector := pyStrip (pyValueStr ((row "sector").getD (.vStr "")))
    let sector := pyStrip ((cfg.sector_aliases.lookup raw_sector).getD raw_sector)
    if sector ≠ "" then
      match sector_medians.lookup sector with
      | some m => (m, "sector_median_from_defaulters")
      | none => (global_median, "global_median_from_defaulters")
    else (global_median, "global_median_from_defaulters")

/-! ## Year window, listing classifier, median -/

/-- `years_from_anchor` from the script: `[anchor - i for i in range(lookback)]`,
reversed when the order is `asc`. -/
def years_from_anchor (anchor_fy : Int) (lookback_years : Int) (year_order : String) :
    List Int :=
  let years := (List.range lookback_years.toNat).map (fun i : Nat => anchor_fy - (i : Int))
  if year_order = "asc" then years.reverse else years

/-- `cin_is_listed` from the script: `str(cin or "").strip().upper()` starts
with one of the configured prefixes (compared uppercased). -/
def cin_is_listed (cin : Value) (listed_prefixes : List String) : Bool :=
  let text := pyUpper (pyStrip (pyValueStr (if valueTruthy cin then cin else .vStr "")))
  if text = "" then false
  else listed_prefixes.any (fun p => List.isPrefixOf (pyUpper p).data text.data)

/-- Python `int(round((a + b) / 2))` for integers `a`, `b`: the mean, rounded
to the nearest integer with ties rounded to the even integer (Python
`round` uses banker's rounding).  `Int.fdiv` is Python floor division. -/
def pyRound2 (a b : Int) : Int :=
  let mid := a + b
  if mid % 2 = 0 then mid / 2
  else
    let k := Int.fdiv mid 2
    if k % 2 = 0 then k else k + 1

/-- The values sorted ascending, as `statistics.median` sorts its input. -/
def sortedVals (values : List Int) : List Int :=
  List.insertionSort (fun a b : Int => a ≤ b) values

/-- `median_or_fallback` from the script: `int(round(statistics.median(values)))`
with the configured fallback for an empty list.  `statistics.median` sorts and
takes the middle element (odd length) or the rounded mean of the two middle
elements (even length). -/
def median_or_fallback (values : List Int) (fallback : Int) : Int :=
  if values = [] then fallback
  else
    let s := sortedVals values
    let n := s.length
    if n % 2 = 1 then s.getD (n / 2) 0
    else pyRound2 (s.getD (n / 2 - 1) 0) (s.getD (n / 2) 0)

/-- Twice the statistical median of a non-empty list: the sum of the two
middle elements of the sorted list (both the same element for odd length). -/
def m2val (values : List Int) : Int :=
  (sortedVals values).getD (((sortedVals values).length - 1) / 2) 0
    + (sortedVals values).getD ((sortedVals values).length / 2) 0

/-! ## Plan rows -/

/-- One output row of the plan (`base` dict plus the per-job fields). -/
structure PlanRow where
  cohort : String
  company_name : String
  cin : String
  sector : String
  is_listed : Bool
  anchor_fy : Int
  anchor_reason : String
  source_priority : String
  default_year : Option Int
  fy_before_default : Option Int
  target_fy : Int
  doc_type : String
  required : Bool
deriving DecidableEq, Repr

/-- `append_company_rows` from the script: the job rows emitted for one
company record (the script appends them to `plan_rows`; here they are
returned). -/
def append_company_rows (listed_prefixes priority_listed priority_unlisted : List String)
    (lookback_years : Int) (year_order : String)
    (required_docs optional_docs : List String)
    (row : Record) (cohort : String) (anchor_fy : Int) (anchor_reason : String) :
    List PlanRow :=
  let is_listed := cin_is_listed ((row "cin").getD .vNone) listed_prefixes
  let source_priority := if is_listed then priority_listed else priority_unlisted
  let years := years_from_anchor anchor_fy lookback_years year_order
  let source_priority_text := String.intercalate "|" source_priority
  let company_name := pyStrip (pyValueStr ((row "company_name").getD (.vStr "")))
  let cinText := pyUpper (pyStrip (pyValueStr ((row "cin").getD (.vStr ""))))
  let sectorText := pyStrip (pyValueStr ((row "sector").getD (.vStr "")))
  let default_year := parse_year ((row "default_year").getD .vNone)
  let fy_before_default := parse_year ((row "fy_before_default").getD .vNone)
  years.flatMap (fun year =>
    required_docs.map (fun doc =>
      { cohort := cohort, company_name := company_name, cin := cinText,
        sector := sectorText, is_listed := is_listed, anchor_fy := anchor_fy,
        anchor_reason := anchor_reason, source_priority := source_priority_text,
        default_year := default_year, fy_before_default := fy_before_default,
        target_fy := year, doc_type := doc, required := true }) ++
    optional_docs.map (fun doc =>
      { cohort := cohort, company_name := company_name, cin := cinText,
        sector := sectorText, is_listed := is_listed, anchor_fy := anchor_fy,
        anchor_reason := anchor_reason, source_priority := source_priority_text,
        default_year := default_year, fy_before_default := fy_before_default,
        target_fy := year, doc_type := doc, required := false }))

/-! ## The final sort order -/

/-- Lexicographic comparison of character lists by code point, the order used
by Python and pandas on strings. -/
def cmpChars : List Char → List Char → Ordering
  | [], [] => .eq
  | [], _ :: _ => .lt
  | _ :: _, [] => .gt
  | a :: as, b :: bs =>
    if a < b then .lt else if b < a then .gt else cmpChars as bs

/-- Sort key 1: `cohort` ascending. -/
def cmpByCohort (a b : PlanRow) : Ordering := cmpChars a.cohort.data b.cohort.data

/-- Sort key 2: `company_name` ascending. -/
def cmpByCompanyName (a b : PlanRow) : Ordering :=
  cmpChars a.company_name.data b.company_name.data

/-- Sort key 3: `target_fy` descending. -/
def cmpByTargetFyDesc (a b : PlanRow) : Ordering := compare b.target_fy a.target_fy

/-- Sort key 4: `required` descending (`True` before `False`). -/
def cmpByRequiredDesc (a b : PlanRow) : Ordering := compare b.required a.required

/-- Sort key 5: `doc_type` ascending. -/
def cmpByDocType (a b : PlanRow) : Ordering := cmpChars a.doc_type.data b.doc_type.data

/-- The five-key comparator of the final
`sort_values(by=[cohort, company_name, target_fy, required, doc_type],
ascending=[True, True, False, False, True])`. -/
def planCmp : PlanRow → PlanRow → Ordering :=
  compareLex cmpByCohort (compareLex cmpByCompanyName
    (compareLex cmpByTargetFyDesc (compareLex cmpByRequiredDesc cmpByDocType)))

/-- The non-strict order induced by `planCmp`. -/
def planLE (a b : PlanRow) : Prop := planCmp a b ≠ .gt

instance : DecidableRel planLE := fun a b => by unfold planLE; infer_instance

/-! ## build_plan -/

/-- The columns `build_plan` requires of each cohort. -/
def requiredCols : List String := ["company_name", "cin", "sector"]

/-- The missing columns computed by `ensure_columns`. -/
def missingCols (cols : List String) : List String :=
  requiredCols.filter (fun c => !(cols.contains c))

/-- A cohort table: its columns and its rows. -/
structure Frame where
  columns : List String
  rows : List Record

/-- Python dict assignment `d[k] = v` on an insertion-ordered association
list: replace in place if present, else append. -/
def upsert (l : List (String × Int)) (k : String) (v : Int) : List (String × Int) :=
  if (l.lookup k).isSome then l.map (fun p => if p.1 = k then (k, v) else p)
  else l ++ [(k, v)]

/-- First-occurrence deduplication of the sector key values, as `groupby`
groups them. -/
def dedupKeys (vs : List Value) : List Value :=
  vs.foldl (fun acc v => if v ∈ acc then acc else acc ++ [v]) []

/-- `build_plan` from the script.  Raised `ValueError`s become `Except.error`;
a `.ok` result is the sorted plan. -/
def build_plan (defaulters non_defaulters : Frame) (config : Config) :
    Except String (List PlanRow) :=
  let missD := missingCols defaulters.columns
  if missD ≠ [] then
    .error ("defaulters missing required column(s): " ++ String.intercalate ", " missD)
  else
  let missN := missingCols non_defaulters.columns
  if missN ≠ [] then
    .error ("non_defaulters missing required column(s): " ++ String.intercalate ", " missN)
  else
  let lookback_years := config.general.lookback_years.getD 3
  let default_anchor := config.general.default_anchor_fy.getD 2023
  let year_order := pyLower (pyStrip (config.general.year_order.getD "desc"))
  if year_order ≠ "asc" ∧ year_order ≠ "desc" then
    .error "general.year_order must be asc or desc"
  else
  let listed_prefixes := config.sources.listed_cin_prefixes.getD ["L"]
  let priority_listed := config.sources.priority_listed.getD ["bse", "nse", "mca"]
  let priority_unlisted := config.sources.priority_unlisted.getD ["mca"]
  let required_docs := config.documents.required.getD []
  let optional_docs := config.documents.optional.getD []
  if required_docs = [] then .error "documents.required cannot be empty"
  else
  let defAnch := defaulters.rows.map (fun r =>
    let rMod : Record := fun c =>
      if c = "anchor_fy" then some .vNone
      else if c = "anchor_reason" then some (.vStr "") else r c
    (r, infer_defaulter_anchor rMod config.defaulters default_anchor))
  let valid_anchors := defAnch.map (fun t => t.2.1)
  let global_median := median_or_fallback valid_anchors default_anchor
  let rawSectorKeys := dedupKeys (defAnch.map (fun t => (t.1 "sector").getD .vNone))
  let sortedSectorKeys := List.insertionSort
    (fun a b => cmpChars (pyValueStr a).data (pyValueStr b).data ≠ .gt) rawSectorKeys
  let sector_medians := sortedSectorKeys.foldl (fun acc k =>
    let vals := (defAnch.filter (fun t => (t.1 "sector").getD .vNone = k)).map (fun t => t.2.1)
    let sector_key := pyStrip (pyValueStr k)
    if sector_key = "" then acc
    else upsert acc sector_key (median_or_fallback vals global_median)) []
  let plan_rows :=
    defAnch.flatMap (fun t =>
      append_company_rows listed_prefixes priority_listed priority_unlisted lookback_years
        year_order required_docs optional_docs t.1 "defaulter" t.2.1 t.2.2) ++
    non_defaulters.rows.flatMap (fun r =>
      let ar := infer_non_defaulter_anchor r config.non_defaulters default_anchor
        sector_medians global_median
      append_company_rows listed_prefixes priority_listed priority_unlisted lookback_years
        year_order required_docs optional_docs r "non_defaulter" ar.1 ar.2)
  .ok (List.insertionSort planLE plan_rows)

/-! ## Concrete inputs used by witnesses and counterexamples -/

/-- The defaulter record of the specification's worked scenario. -/
def acmeRow : Record := recordOf
  [("company_name", .vStr "Acme Ltd"), ("cin", .vStr "L27100MH1995PLC084207"),
   ("sector", .vStr "Steel"), ("default_year", .vStr "2020"),
   ("fy_before_default", .vStr "")]

/-- A one-record defaulter cohort. -/
def wFrameD : Frame :=
  ⟨["company_name", "cin", "sector", "default_year", "fy_before_default"], [acmeRow]⟩

/-- A non-defaulter record. -/
def wRowN : Record := recordOf
  [("company_name", .vStr "Beta Ltd"), ("cin", .vStr "U11111"), ("sector", .vStr "Steel")]

/-- A one-record non-defaulter cohort. -/
def wFrameN : Frame := ⟨["company_name", "cin", "sector"], [wRowN]⟩

/-- A small valid configuration. -/
def wCfg : Config :=
  { general := { lookback_years := some 2, default_anchor_fy := some 2023,
                 year_order := some "desc" },
    documents := { required := some ["annual_report"], optional := some ["board_report"] } }

/-- The plan produced on the small valid inputs. -/
def wPlan : List PlanRow :=
  match build_plan wFrameD wFrameN wCfg with
  | .ok p => p
  | .error _ => []

/-- A configuration whose required document list is empty but whose optional
list is not. -/
def cfgEmptyReq : Config :=
  { documents := { required := some [], optional := some ["board_report"] } }

/-! ## Theorems: order theory for the final sort -/

/-- Swapping the arguments of `cmpChars` swaps the ordering. -/
theorem cmpChars_swap : ∀ (as bs : List Char), (cmpChars as bs).swap = cmpChars bs as
  | [], [] => rfl
  | [], _ :: _ => rfl
  | _ :: _, [] => rfl
  | a :: as, b :: bs => by
    simp only [cmpChars]
    rcases lt_trichotomy a b with h | h | h
    · rw [if_pos h, if_neg (lt_asymm h), if_pos h]; rfl
    · subst h
      rw [if_neg (lt_irrefl a), if_neg (lt_irrefl a), if_neg (lt_irrefl a),
        if_neg (lt_irrefl a)]
      exact cmpChars_swap as bs
    · rw [if_neg (lt_asymm h), if_pos h, if_pos h]; rfl

/-- `cmpChars` is transitive in the non-strict sense. -/
theorem cmpChars_le_trans (as : List Char) : ∀ (bs cs : List Char),
    cmpChars as bs ≠ .gt → cmpChars bs cs ≠ .gt → cmpChars as cs ≠ .gt := by
  induction as with
  | nil =>
    intro bs cs h1 h2
    cases cs <;> simp [cmpChars]
  | cons a as ih =>
    intro bs cs h1 h2
    cases bs with
    | nil => simp [cmpChars] at h1
    | cons b bs =>
      cases cs with
      | nil => simp [cmpChars] at h2
      | cons c cs =>
        simp only [cmpChars] at h1 h2 ⊢
        rcases lt_trichotomy a b with hab | hab | hab
        · rcases lt_trichotomy b c with hbc | hbc | hbc
          · rw [if_pos (lt_trans hab hbc)]; simp
          · subst hbc; rw [if_pos hab]; simp
          · rw [if_neg (lt_asymm hbc), if_pos hbc] at h2; exact absurd rfl h2
        · subst hab
          rcases lt_trichotomy a c with hac | hac | hac
          · rw [if_pos hac]; simp
          · subst hac
            rw [if_neg (lt_irrefl a), if_neg (lt_irrefl a)] at h1 h2 ⊢
            exact ih _ _ h1 h2
          · rw [if_neg (lt_asymm hac), if_pos hac] at h2; exact absurd rfl h2
        · rw [if_neg (lt_asymm hab), if_pos hab] at h1; exact absurd rfl h1

instance : Batteries.OrientedCmp cmpByCohort where
  symm a b := cmpChars_swap a.cohort.data b.cohort.data

instance : Batteries.TransCmp cmpByCohort where
  le_trans h1 h2 := cmpChars_le_trans _ _ _ h1 h2

instance : Batteries.OrientedCmp cmpByCompanyName where
  symm a b := cmpChars_swap a.company_name.data b.company_name.data

instance : Batteries.TransCmp cmpByCompanyName where
  le_trans h1 h2 := cmpChars_le_trans _ _ _ h1 h2

instance : Batteries.OrientedCmp cmpByTargetFyDesc where
  symm a b := @Batteries.OrientedCmp.symm Int compare inferInstance
    b.target_fy a.target_fy

instance : Batteries.TransCmp cmpByTargetFyDesc where
  le_trans h1 h2 := @Batteries.TransCmp.le_trans Int compare inferInstance _ _ _ h2 h1

instance : Batteries.OrientedCmp cmpByRequiredDesc where
  symm a b := @Batteries.OrientedCmp.symm Bool compare inferInstance
    b.required a.required

instance : Batteries.TransCmp cmpByRequiredDesc where
  le_trans h1 h2 := @Batteries.TransCmp.le_trans Bool compare inferInstance _ _ _ h2 h1

instance : Batteries.OrientedCmp cmpByDocType where
  symm a b := cmpChars_swap a.doc_type.data b.doc_type.data

instance : Batteries.TransCmp cmpByDocType where
  le_trans h1 h2 := cmpChars_le_trans _ _ _ h1 h2

instance : Batteries.TransCmp planCmp := by
  unfold planCmp; infer_instance

instance : IsTrans PlanRow planLE where
  trans _ _ _ h1 h2 := Batteries.TransCmp.le_trans h1 h2

instance : IsTotal PlanRow planLE where
  total a b := by
    unfold planLE
    by_cases h : planCmp a b = .gt
    · right
      have hs := @Batteries.OrientedCmp.symm PlanRow planCmp inferInstance a b
      rw [h] at hs
      rw [← hs]
      decide
    · left; exact h

/-- Claim C2: a successful `build_plan` result is totally ordered by the
five-key comparator (`cohort` asc, `company_name` asc, `target_fy` desc,
`required` desc, `doc_type` asc): every pair of rows — in particular every
adjacent pair — compares non-decreasingly. -/
theorem C2_plan_sorted (d n : Frame) (config : Config) (plan : List PlanRow)
    (h : build_plan d n config = .ok plan) :
    List.Sorted planLE plan ∧ List.Chain' planLE plan := by
  simp only [build_plan] at h
  split at h
  · exact absurd h (by simp)
  · split at h
    · exact absurd h (by simp)
    · split at h
      · exact absurd h (by simp)
      · split at h
        · exact absurd h (by simp)
        · rw [Except.ok.injEq] at h
          subst h
          exact ⟨List.sorted_insertionSort _ _,
            List.Pairwise.chain' (List.sorted_insertionSort _ _)⟩

/-- Witness for C2 at the concrete small inputs. -/
theorem C2_plan_sorted_witness : List.Sorted planLE wPlan ∧ List.Chain' planLE wPlan :=
  C2_plan_sorted wFrameD wFrameN wCfg wPlan rfl

/-! ## Theorems: the job matrix (C1) -/

/-- The length of a year-by-document cross expansion. -/
theorem flatMap_two_maps_length {α β γ : Type} (ys : List α) (rd od : List β)
    (f g : α → β → γ) :
    (ys.flatMap (fun y => rd.map (f y) ++ od.map (g y))).length
      = ys.length * (rd.length + od.length) := by
  induction ys with
  | nil => simp
  | cons y ys ih =>
    simp only [List.flatMap_cons, List.length_append, List.length_map, ih,
      List.length_cons]
    ring

/-- Filtering a year-by-document cross expansion by a predicate that holds on
every required-side element and fails on every optional-side element keeps
exactly the required side. -/
theorem flatMap_two_maps_filter_length {α β γ : Type} (ys : List α) (rd od : List β)
    (f g : α → β → γ) (p : γ → Bool)
    (hf : ∀ y d, p (f y d) = true) (hg : ∀ y d, p (g y d) = false) :
    ((ys.flatMap (fun y => rd.map (f y) ++ od.map (g y))).filter p).length
      = ys.length * rd.length := by
  induction ys with
  | nil => simp
  | cons y ys ih =>
    have h1 : (rd.map (f y)).filter p = rd.map (f y) := by
      apply List.filter_eq_self.mpr
      intro c hc
      rcases List.mem_map.mp hc with ⟨d, _, rfl⟩
      exact hf y d
    have h2 : (od.map (g y)).filter p = [] := by
      apply List.filter_eq_nil_iff.mpr
      intro c hc
      rcases List.mem_map.mp hc with ⟨d, _, rfl⟩
      simp [hg y d]
    simp only [List.flatMap_cons, List.filter_append, List.length_append, ih, h1, h2,
      List.length_map, List.length_nil, List.length_cons]
    ring

/-- Filtering a year-by-document cross expansion by a predicate that fails on
every required-side element and holds on every optional-side element keeps
exactly the optional side. -/
theorem flatMap_two_maps_filter_length_snd {α β γ : Type} (ys : List α) (rd od : List β)
    (f g : α → β → γ) (p : γ → Bool)
    (hf : ∀ y d, p (f y d) = false) (hg : ∀ y d, p (g y d) = true) :
    ((ys.flatMap (fun y => rd.map (f y) ++ od.map (g y))).filter p).length
      = ys.length * od.length := by
  induction ys with
  | nil => simp
  | cons y ys ih =>
    have h1 : (rd.map (f y)).filter p = [] := by
      apply List.filter_eq_nil_iff.mpr
      intro c hc
      rcases List.mem_map.mp hc with ⟨d, _, rfl⟩
      simp [hf y d]
    have h2 : (od.map (g y)).filter p = od.map (g y) := by
      apply List.filter_eq_self.mpr
      intro c hc
      rcases List.mem_map.mp hc with ⟨d, _, rfl⟩
      exact hg y d
    simp only [List.flatMap_cons, List.filter_append, List.length_append, ih, h1, h2,
      List.length_map, List.length_nil, List.length_cons]
    ring

/-- Claim C1: for every company record, for any resolved anchor (in particular
the fallback anchor used when every field of the record failed to parse), the
job rows emitted for the record number exactly (target-year window length) ×
(required + optional document types); the rows with `required = true` number
window × required-count and carry document types from the required list, and
symmetrically the `required = false` rows come from the optional list. -/
theorem C1_job_matrix (lp pl pu : List String) (lookback : Int) (yo : String)
    (rd od : List String) (row : Record) (cohort : String) (anchor : Int)
    (reason : String) :
    (append_company_rows lp pl pu lookback yo rd od row cohort anchor reason).length
      = (years_from_anchor anchor lookback yo).length * (rd.length + od.length)
    ∧ ((append_company_rows lp pl pu lookback yo rd od row cohort anchor
        reason).filter (fun r => r.required)).length
      = (years_from_anchor anchor lookback yo).length * rd.length
    ∧ ((append_company_rows lp pl pu lookback yo rd od row cohort anchor
        reason).filter (fun r => !r.required)).length
      = (years_from_anchor anchor lookback yo).length * od.length
    ∧ ∀ r ∈ append_company_rows lp pl pu lookback yo rd od row cohort anchor reason,
        (r.required = true → r.doc_type ∈ rd) ∧ (r.required = false → r.doc_type ∈ od) := by
  refine ⟨?_, ?_, ?_, ?_⟩
  · exact flatMap_two_maps_length _ _ _ _ _
  · exact flatMap_two_maps_filter_length _ _ _ _ _ _ (fun y d => rfl) (fun y d => rfl)
  · exact flatMap_two_maps_filter_length_snd _ _ _ _ _ _ (fun y d => rfl) (fun y d => rfl)
  · intro r hr
    simp only [append_company_rows, List.mem_flatMap, List.mem_append,
      List.mem_map] at hr
    rcases hr with ⟨y, _, hr | hr⟩ <;> rcases hr with ⟨d, hd, rfl⟩
    · exact ⟨fun _ => hd, fun hco => by simp at hco⟩
    · exact ⟨fun hco => by simp at hco, fun _ => hd⟩

/-- Witness for C1 at the specification's scenario record with one required
and one optional document type and a three-year window. -/
theorem C1_job_matrix_witness :
    (append_company_rows [] [] [] 3 "desc" ["annual_report"] ["board_report"]
      acmeRow "defaulter" 2019 "r").length
      = (years_from_anchor 2019 3 "desc").length
        * (["annual_report"].length + ["board_report"].length) :=
  (C1_job_matrix [] [] [] 3 "desc" ["annual_report"] ["board_report"]
    acmeRow "defaulter" 2019 "r").1

/-! ## Theorems: the year window (C6) -/

/-- Claim C6: for every anchor `Y` and lookback `N ≥ 1`, the year window is
exactly `[Y, Y-1, …, Y-(N-1)]` for `desc` and its reversal for `asc`; it has
`N` pairwise-distinct entries, contains `Y` and `Y-(N-1)`, and every entry
lies between them (so max − min = N − 1). -/
theorem C6_year_window (Y : Int) (N : Nat) (hN : 1 ≤ N) (yo : String)
    (hyo : yo = "asc" ∨ yo = "desc") :
    (yo = "desc" → years_from_anchor Y (N : Int) yo
      = (List.range N).map (fun i : Nat => Y - (i : Int)))
    ∧ (yo = "asc" → years_from_anchor Y (N : Int) yo
      = ((List.range N).map (fun i : Nat => Y - (i : Int))).reverse)
    ∧ (years_from_anchor Y (N : Int) yo).length = N
    ∧ (years_from_anchor Y (N : Int) yo).Nodup
    ∧ Y ∈ years_from_anchor Y (N : Int) yo
    ∧ (Y - ((N : Int) - 1)) ∈ years_from_anchor Y (N : Int) yo
    ∧ ∀ y ∈ years_from_anchor Y (N : Int) yo, Y - ((N : Int) - 1) ≤ y ∧ y ≤ Y := by
  have htn : ((N : Int)).toNat = N := Int.toNat_natCast N
  have hbase_len : ((List.range N).map (fun i : Nat => Y - (i : Int))).length = N := by
    simp
  have hbase_nodup : ((List.range N).map (fun i : Nat => Y - (i : Int))).Nodup := by
    refine List.Nodup.map ?_ (List.nodup_range N)
    intro i j hij
    simp only at hij
    omega
  have hbase_memY : Y ∈ (List.range N).map (fun i : Nat => Y - (i : Int)) := by
    refine List.mem_map.mpr ⟨0, List.mem_range.mpr (by omega), by simp⟩
  have hbase_memLo : (Y - ((N : Int) - 1)) ∈ (List.range N).map (fun i : Nat => Y - (i : Int)) := by
    refine List.mem_map.mpr ⟨N - 1, List.mem_range.mpr (by omega), by omega⟩
  have hbase_bound : ∀ y ∈ (List.range N).map (fun i : Nat => Y - (i : Int)),
      Y - ((N : Int) - 1) ≤ y ∧ y ≤ Y := by
    intro y hy
    rcases List.mem_map.mp hy with ⟨i, hi, rfl⟩
    rw [List.mem_range] at hi
    omega
  rcases hyo with h | h <;> subst h
  · have hif : years_from_anchor Y (N : Int) "asc"
        = ((List.range N).map (fun i : Nat => Y - (i : Int))).reverse := by
      simp only [years_from_anchor, htn]
      rw [if_pos trivial]
    refine ⟨fun had => absurd had (by decide), fun _ => hif, ?_, ?_, ?_, ?_, ?_⟩ <;> rw [hif]
    · simp
    · exact List.nodup_reverse.mpr hbase_nodup
    · exact List.mem_reverse.mpr hbase_memY
    · exact List.mem_reverse.mpr hbase_memLo
    · intro y hy
      exact hbase_bound y (List.mem_reverse.mp hy)
  · have hif : years_from_anchor Y (N : Int) "desc"
        = (List.range N).map (fun i : Nat => Y - (i : Int)) := by
      simp only [years_from_anchor, htn]
      rw [if_neg (by decide : ¬("desc" = "asc"))]
    refine ⟨fun _ => hif, fun had => absurd had (by decide), ?_, ?_, ?_, ?_, ?_⟩ <;> rw [hif]
    · exact hbase_len
    · exact hbase_nodup
    · exact hbase_memY
    · exact hbase_memLo
    · exact hbase_bound

/-- Witness for C6 at anchor 2019, lookback 3, order `desc` (the
specification's worked scenario has target years `[2019, 2018, 2017]`). -/
theorem C6_year_window_witness :
    years_from_anchor 2019 ((3 : Nat) : Int) "desc"
      = (List.range 3).map (fun i : Nat => 2019 - (i : Int)) :=
  (C6_year_window 2019 3 (by decide) "desc" (Or.inr rfl)).1 rfl

/-! ## Theorems: job key uniqueness (C5) -/

/-- The year window never contains a year twice, whatever the lookback and
order flag. -/
theorem years_from_anchor_nodup (anchor lookback : Int) (yo : String) :
    (years_from_anchor anchor lookback yo).Nodup := by
  have hbase : ((List.range lookback.toNat).map
      (fun i : Nat => anchor - (i : Int))).Nodup := by
    refine List.Nodup.map ?_ (List.nodup_range _)
    intro i j hij
    simp only at hij
    omega
  by_cases h : yo = "asc" <;> simp only [years_from_anchor, h, if_true, if_false,
    reduceIte]
  · exact List.nodup_reverse.mpr hbase
  · exact hbase

/-- The (target year, doc type) keys of the rows emitted for one record are
exactly the cross product of the year window with the concatenated document
lists. -/
theorem append_rows_key_pairs (lp pl pu : List String) (lookback : Int) (yo : String)
    (rd od : List String) (row : Record) (cohort : String) (anchor : Int)
    (reason : String) :
    (append_company_rows lp pl pu lookback yo rd od row cohort anchor reason).map
        (fun r => (r.target_fy, r.doc_type))
      = (years_from_anchor anchor lookback yo) ×ˢ (rd ++ od) := by
  simp only [append_company_rows]
  rw [List.map_flatMap]
  show List.flatMap _ _ = List.product _ _
  rw [List.product]
  congr 1
  funext y
  rw [List.map_append, List.map_append, List.map_map, List.map_map]
  rfl

/-- Claim C5 (amended): provided the concatenation of the required and the
optional document lists contains no duplicate document type, no two rows
emitted for one record share the `(cohort, company_name, target_year,
doc_type)` key. -/
theorem C5_key_uniqueness (lp pl pu : List String) (lookback : Int) (yo : String)
    (rd od : List String) (row : Record) (cohort : String) (anchor : Int)
    (reason : String) (h : (rd ++ od).Nodup) :
    List.Pairwise (fun a b : PlanRow =>
        (a.cohort, a.company_name, a.target_fy, a.doc_type)
          ≠ (b.cohort, b.company_name, b.target_fy, b.doc_type))
      (append_company_rows lp pl pu lookback yo rd od row cohort anchor reason) := by
  have hk : ((append_company_rows lp pl pu lookback yo rd od row cohort anchor
      reason).map (fun r => (r.target_fy, r.doc_type))).Nodup := by
    rw [append_rows_key_pairs]
    exact List.Nodup.product (years_from_anchor_nodup _ _ _) h
  have hp := List.pairwise_map.mp hk
  refine hp.imp ?_
  intro a b hab hkey
  apply hab
  have h3 : a.target_fy = b.target_fy := congrArg (fun q => q.2.2.1) hkey
  have h4 : a.doc_type = b.doc_type := congrArg (fun q => q.2.2.2) hkey
  rw [h3, h4]

/-- Claim C5 counterexample: with `annual_report` configured both as required
and as optional, the two rows emitted for one record and one year share the
`(cohort, company_name, target_year, doc_type)` key. -/
theorem C5_counterexample :
    ¬ List.Pairwise (fun a b : PlanRow =>
        (a.cohort, a.company_name, a.target_fy, a.doc_type)
          ≠ (b.cohort, b.company_name, b.target_fy, b.doc_type))
      (append_company_rows [] [] [] 1 "desc" ["annual_report"] ["annual_report"]
        acmeRow "defaulter" 2020 "x") := by decide

/-- Witness for the amended C5 with disjoint document lists. -/
theorem C5_key_uniqueness_witness :
    List.Pairwise (fun a b : PlanRow =>
        (a.cohort, a.company_name, a.target_fy, a.doc_type)
          ≠ (b.cohort, b.company_name, b.target_fy, b.doc_type))
      (append_company_rows [] [] [] 1 "desc" ["annual_report"] ["board_report"]
        acmeRow "defaulter" 2020 "x") :=
  C5_key_uniqueness [] [] [] 1 "desc" ["annual_report"] ["board_report"]
    acmeRow "defaulter" 2020 "x" (by decide)

/-! ## Theorems: the empty-documents configuration error (C3) -/

/-- Claim C3 counterexample: with an empty required list and a non-empty
optional list the build aborts with the configuration error, contradicting
the claim that it would abort only when both lists are empty. -/
theorem C3_counterexample :
    build_plan wFrameD wFrameN cfgEmptyReq
      = .error "documents.required cannot be empty" := rfl

/-- Claim C3 (amended): holding the rest of the configuration valid, the
build fails fast (before emitting any row) if and only if the required
document list is empty — the optional list is irrelevant to the check. -/
theorem C3_fail_iff_required_empty (d n : Frame) (config : Config)
    (hd : missingCols d.columns = []) (hn : missingCols n.columns = [])
    (hy : pyLower (pyStrip (config.general.year_order.getD "desc")) = "asc"
        ∨ pyLower (pyStrip (config.general.year_order.getD "desc")) = "desc") :
    (∃ e, build_plan d n config = .error e)
      ↔ config.documents.required.getD [] = [] := by
  have hyc : ¬ (pyLower (pyStrip (config.general.year_order.getD "desc")) ≠ "asc"
      ∧ pyLower (pyStrip (config.general.year_order.getD "desc")) ≠ "desc") := by
    rcases hy with hy | hy <;> simp [hy]
  simp only [build_plan, hd, hn]
  rw [if_neg (by simp), if_neg (by simp), if_neg hyc]
  by_cases hreq : config.documents.required.getD [] = []
  · rw [if_pos hreq]
    simp [hreq]
  · rw [if_neg hreq]
    simp [hreq]

/-- Witness for the amended C3: an empty required list aborts the build. -/
theorem C3_fail_iff_required_empty_witness :
    ∃ e, build_plan wFrameD wFrameN cfgEmptyReq = Except.error e :=
  (C3_fail_iff_required_empty wFrameD wFrameN cfgEmptyReq (by decide) (by decide)
    (Or.inr (by decide))).mpr rfl

/-! ## Theorems: the median rounding (C4) -/

/-- Claim C4 counterexample: the median of `[2018, 2019]` is `2018.5`; the
code rounds it to `2018` (Python `round` rounds ties to the even integer),
not to `2019` as the round-half-up claim predicts. -/
theorem C4_counterexample :
    median_or_fallback [2018, 2019] 2000 = 2018
      ∧ median_or_fallback [2018, 2019] 2000 ≠ 2019 := by decide

/-- Claim C4 (amended): the aggregated median equals the configured fallback
when the value list is empty; otherwise it is the statistical median rounded
to the nearest integer with a tie (a median ending in .5, i.e. odd `m2val`)
rounded to the even integer — e.g. a median of 2018.5 yields 2018. -/
theorem C4_median_rounding (values : List Int) (fallback : Int) :
    (values = [] → median_or_fallback values fallback = fallback)
    ∧ (values ≠ [] → m2val values % 2 = 0 →
        median_or_fallback values fallback = m2val values / 2)
    ∧ (values ≠ [] → m2val values % 2 ≠ 0 →
        (median_or_fallback values fallback = (m2val values - 1) / 2
          ∨ median_or_fallback values fallback = (m2val values + 1) / 2)
        ∧ median_or_fallback values fallback % 2 = 0) := by
  by_cases hv : values = []
  · exact ⟨fun _ => by simp [median_or_fallback, hv], fun h => absurd hv h,
      fun h => absurd hv h⟩
  have hlen : (sortedVals values).length = values.length :=
    List.length_insertionSort _ _
  have hpos : 0 < (sortedVals values).length := by
    rw [hlen]
    exact List.length_pos.mpr hv
  have hmed : median_or_fallback values fallback =
      (if (sortedVals values).length % 2 = 1
        then (sortedVals values).getD ((sortedVals values).length / 2) 0
        else pyRound2 ((sortedVals values).getD ((sortedVals values).length / 2 - 1) 0)
          ((sortedVals values).getD ((sortedVals values).length / 2) 0)) := by
    simp [median_or_fallback, hv]
  refine ⟨fun h => absurd h hv, ?_, ?_⟩
  · intro _ hm2
    by_cases hodd : (sortedVals values).length % 2 = 1
    · rw [hmed, if_pos hodd]
      have hidx : ((sortedVals values).length - 1) / 2 = (sortedVals values).length / 2 := by
        omega
      unfold m2val at hm2 ⊢
      rw [hidx]
      omega
    · rw [hmed, if_neg hodd]
      have hidx : ((sortedVals values).length - 1) / 2
          = (sortedVals values).length / 2 - 1 := by
        omega
      unfold m2val at hm2 ⊢
      rw [hidx] at hm2 ⊢
      unfold pyRound2
      rw [if_pos hm2]
  · intro _ hm2
    by_cases hodd : (sortedVals values).length % 2 = 1
    · exfalso
      apply hm2
      have hidx : ((sortedVals values).length - 1) / 2 = (sortedVals values).length / 2 := by
        omega
      unfold m2val
      rw [hidx]
      omega
    · have hidx : ((sortedVals values).length - 1) / 2
          = (sortedVals values).length / 2 - 1 := by
        omega
      unfold m2val at hm2 ⊢
      rw [hidx] at hm2 ⊢
      rw [hmed, if_neg hodd]
      unfold pyRound2
      rw [if_neg hm2]
      rw [Int.fdiv_eq_ediv _ (by norm_num)]
      set a := (sortedVals values).getD ((sortedVals values).length / 2 - 1) 0
      set b := (sortedVals values).getD ((sortedVals values).length / 2) 0
      by_cases hk : (a + b) / 2 % 2 = 0
      · rw [if_pos hk]
        constructor
        · left; omega
        · omega
      · rw [if_neg hk]
        constructor
        · right; omega
        · omega

/-- Witness for the amended C4: the empty defaulter set falls back to the
configured anchor year. -/
theorem C4_median_rounding_witness : median_or_fallback [] 2023 = 2023 :=
  (C4_median_rounding [] 2023).1 rfl

/-! ## Theorems: anchor resolvers (C7, C8, C10) -/

/-- A successfully parsed year always lies in the accepted range. -/
theorem parse_year_some_range (v : Value) (y : Int) (h : parse_year v = some y) :
    1900 ≤ y ∧ y ≤ 2100 := by
  rcases v with _ | s | n
  · exact absurd h (by simp [parse_year])
  all_goals
    simp only [parse_year] at h
    split at h
    · exact absurd h (by simp)
    · split at h
      · exact absurd h (by simp)
      · split at h
        · rw [Option.some.injEq] at h
          subst h
          assumption
        · exact absurd h (by simp)

/-- Claim C7: in the defaulter resolver's default mode, the anchor and reason
are: the parsed pre-default fiscal-year field with the field name as reason;
else the parsed default-year field plus the configured offset, with the field
name suffixed by the signed offset; else the fallback anchor with reason
`fallback_default_anchor_fy`. -/
theorem C7_defaulter_default_mode (row : Record) (cfg : AnchorCfg) (fb : Int)
    (h1 : pyLower (pyStrip
        (cfg.anchor_mode.getD "fy_before_default_or_default_minus_one")) ≠ "fixed_year")
    (h2 : pyLower (pyStrip
        (cfg.anchor_mode.getD "fy_before_default_or_default_minus_one")) ≠ "column") :
    (∀ y, parse_year ((row (cfg.fy_before_default_column.getD
          "fy_before_default")).getD .vNone) = some y →
      infer_defaulter_anchor row cfg fb
        = (y, cfg.fy_before_default_column.getD "fy_before_default"))
    ∧ (parse_year ((row (cfg.fy_before_default_column.getD
          "fy_before_default")).getD .vNone) = none →
      ∀ y, parse_year ((row (cfg.default_year_column.getD
          "default_year")).getD .vNone) = some y →
      infer_defaulter_anchor row cfg fb
        = (y + cfg.default_year_offset.getD (-1),
          cfg.default_year_column.getD "default_year"
            ++ fmtSigned (cfg.default_year_offset.getD (-1))))
    ∧ (parse_year ((row (cfg.fy_before_default_column.getD
          "fy_before_default")).getD .vNone) = none →
      parse_year ((row (cfg.default_year_column.getD
          "default_year")).getD .vNone) = none →
      infer_defaulter_anchor row cfg fb = (fb, "fallback_default_anchor_fy")) := by
  simp only [infer_defaulter_anchor]
  rw [if_neg h1, if_neg h2]
  refine ⟨?_, ?_, ?_⟩
  · intro y hy
    have hb := parse_year_some_range _ _ hy
    rw [hy]
    have ht : truthyYear (some y) = true := by
      simp only [truthyYear, bne_iff_ne, ne_eq, decide_eq_true_eq]
      omega
    rw [if_pos ht]
    rfl
  · intro hnone y hy
    have hb := parse_year_some_range _ _ hy
    rw [hnone, hy]
    have ht : truthyYear (some y) = true := by
      simp only [truthyYear, bne_iff_ne, ne_eq, decide_eq_true_eq]
      omega
    rw [if_neg (by simp [truthyYear]), if_pos ht]
    rfl
  · intro hn1 hn2
    rw [hn1, hn2]
    rw [if_neg (by simp [truthyYear]), if_neg (by simp [truthyYear])]

/-- Witness for C7: the specification's worked scenario — `fy_before_default`
blank, `default_year = "2020"`, offset −1 — yields anchor 2019 with reason
`default_year-1`. -/
theorem C7_defaulter_default_mode_witness :
    infer_defaulter_anchor acmeRow {} 2023 = (2019, "default_year-1") := by
  have h := (C7_defaulter_default_mode acmeRow {} 2023 (by decide) (by decide)).2.1
    (by decide) 2020 (by decide)
  exact h.trans (by decide)

/-- Claim C8: in the non-defaulter resolver's default (sector-median) mode, a
record whose remapped, trimmed sector is non-empty and present in the
sector-median table gets that sector's median with reason
`sector_median_from_defaulters`; a record whose remapped sector is empty or
absent gets the global median with reason `global_median_from_defaulters`. -/
theorem C8_non_defaulter_sector_median (row : Record) (cfg : AnchorCfg) (fb gm : Int)
    (med : List (String × Int))
    (h1 : pyLower (pyStrip
        (cfg.anchor_mode.getD "sector_median_from_defaulters")) ≠ "fixed_year")
    (h2 : pyLower (pyStrip
        (cfg.anchor_mode.getD "sector_median_from_defaulters")) ≠ "column")
    (h3 : pyLower (pyStrip
        (cfg.anchor_mode.getD "sector_median_from_defaulters"))
        ≠ "global_median_from_defaulters") :
    (∀ m0,
      pyStrip ((cfg.sector_aliases.lookup
          (pyStrip (pyValueStr ((row "sector").getD (.vStr ""))))).getD
          (pyStrip (pyValueStr ((row "sector").getD (.vStr ""))))) ≠ "" →
      med.lookup (pyStrip ((cfg.sector_aliases.lookup
          (pyStrip (pyValueStr ((row "sector").getD (.vStr ""))))).getD
          (pyStrip (pyValueStr ((row "sector").getD (.vStr "")))))) = some m0 →
      infer_non_defaulter_anchor row cfg fb med gm
        = (m0, "sector_median_from_defaulters"))
    ∧ ((pyStrip ((cfg.sector_aliases.lookup
          (pyStrip (pyValueStr ((row "sector").getD (.vStr ""))))).getD
          (pyStrip (pyValueStr ((row "sector").getD (.vStr ""))))) = ""
        ∨ med.lookup (pyStrip ((cfg.sector_aliases.lookup
          (pyStrip (pyValueStr ((row "sector").getD (.vStr ""))))).getD
          (pyStrip (pyValueStr ((row "sector").getD (.vStr "")))))) = none) →
      infer_non_defaulter_anchor row cfg fb med gm
        = (gm, "global_median_from_defaulters")) := by
  simp only [infer_non_defaulter_anchor]
  rw [if_neg h1, if_neg h2, if_neg h3]
  refine ⟨?_, ?_⟩
  · intro m0 hne hlk
    rw [if_pos hne, hlk]
  · intro hor
    rcases hor with he | hlk
    · rw [if_neg (by simp [he])]
    · by_cases he : pyStrip ((cfg.sector_aliases.lookup
          (pyStrip (pyValueStr ((row "sector").getD (.vStr ""))))).getD
          (pyStrip (pyValueStr ((row "sector").getD (.vStr ""))))) = ""
      · rw [if_neg (by simp [he])]
      · rw [if_pos he, hlk]

/-- Witness for C8: the specification's scenario — sector `Steel` with
`sector_medians = ("Steel", 2018)` — yields anchor 2018 with reason
`sector_median_from_defaulters`. -/
theorem C8_non_defaulter_sector_median_witness :
    infer_non_defaulter_anchor wRowN {} 2023 [("Steel", 2018)] 2020
      = (2018, "sector_median_from_defaulters") :=
  (C8_non_defaulter_sector_median wRowN {} 2023 2020 [("Steel", 2018)]
    (by decide) (by decide) (by decide)).1 2018 (by decide) (by decide)

/-- Claim C10: a configured `anchor_mode` that (after trimming and
lowercasing) is none of the recognized modes makes both resolvers behave
exactly as with their documented default mode; an unknown mode is never
rejected — the resolvers are total and `build_plan` performs no check on
`anchor_mode`. -/
theorem C10_unknown_mode_default (row : Record) (cfgD cfgN : AnchorCfg) (fb gm : Int)
    (med : List (String × Int))
    (hD1 : pyLower (pyStrip
        (cfgD.anchor_mode.getD "fy_before_default_or_default_minus_one")) ≠ "fixed_year")
    (hD2 : pyLower (pyStrip
        (cfgD.anchor_mode.getD "fy_before_default_or_default_minus_one")) ≠ "column")
    (hN1 : pyLower (pyStrip
        (cfgN.anchor_mode.getD "sector_median_from_defaulters")) ≠ "fixed_year")
    (hN2 : pyLower (pyStrip
        (cfgN.anchor_mode.getD "sector_median_from_defaulters")) ≠ "column")
    (hN3 : pyLower (pyStrip
        (cfgN.anchor_mode.getD "sector_median_from_defaulters"))
        ≠ "global_median_from_defaulters") :
    infer_defaulter_anchor row cfgD fb
      = infer_defaulter_anchor row
          { cfgD with anchor_mode := some "fy_before_default_or_default_minus_one" } fb
    ∧ infer_non_defaulter_anchor row cfgN fb med gm
      = infer_non_defaulter_anchor row
          { cfgN with anchor_mode := some "sector_median_from_defaulters" } fb med gm := by
  constructor
  · simp only [infer_defaulter_anchor]
    rw [if_neg hD1, if_neg hD2]
    rfl
  · simp only [infer_non_defaulter_anchor]
    rw [if_neg hN1, if_neg hN2, if_neg hN3]
    rfl

/-- Witness for C10 with the unknown mode `" Banana "` on both resolvers. -/
theorem C10_unknown_mode_default_witness :
    infer_defaulter_anchor acmeRow { anchor_mode := some " Banana " } 2023
      = infer_defaulter_anchor acmeRow
          { ({ anchor_mode := some " Banana " } : AnchorCfg) with
            anchor_mode := some "fy_before_default_or_default_minus_one" } 2023
    ∧ infer_non_defaulter_anchor wRowN { anchor_mode := some " Banana " } 2023
        [("Steel", 2018)] 2020
      = infer_non_defaulter_anchor wRowN
          { ({ anchor_mode := some " Banana " } : AnchorCfg) with
            anchor_mode := some "sector_median_from_defaulters" } 2023
          [("Steel", 2018)] 2020 :=
  C10_unknown_mode_default acmeRow { anchor_mode := some " Banana " }
    { anchor_mode := some " Banana " } 2023 2020 [("Steel", 2018)]
    (by decide) (by decide) (by decide) (by decide) (by decide)

/-! ## Theorems: the year parser (C9) -/

/-- Facts about the ten digit characters, checked by evaluation. -/
theorem digitChar_props : ∀ d < 10, (Nat.digitChar d).isDigit = true
    ∧ (Nat.digitChar d).isWhitespace = false
    ∧ (Nat.digitChar d).toLower = Nat.digitChar d
    ∧ (Nat.digitChar d).toNat = 48 + d
    ∧ Nat.digitChar d ≠ '.' ∧ Nat.digitChar d ≠ '_' ∧ Nat.digitChar d ≠ '-'
    ∧ Nat.digitChar d ≠ '+' ∧ (Nat.digitChar d).toLower ≠ 'n' := by decide

/-- Every character produced by `natToDigitsAux` is a digit character. -/
theorem natToDigitsAux_mem (fuel : Nat) : ∀ (n : Nat), ∀ c ∈ natToDigitsAux fuel n,
    ∃ d, d < 10 ∧ c = Nat.digitChar d := by
  induction fuel with
  | zero =>
    intro n c hc
    simp [natToDigitsAux] at hc
  | succ fuel ih =>
    intro n c hc
    simp only [natToDigitsAux] at hc
    by_cases hlt : n < 10
    · rw [if_pos hlt] at hc
      rcases List.mem_singleton.mp hc with rfl
      exact ⟨n, hlt, rfl⟩
    · rw [if_neg hlt] at hc
      rcases List.mem_append.mp hc with hc | hc
      · exact ih _ c hc
      · rcases List.mem_singleton.mp hc with rfl
        exact ⟨n % 10, by omega, rfl⟩

/-- Appending one digit multiplies the accumulated value by ten. -/
theorem digitsToNat_append (cs : List Char) (c : Char) :
    digitsToNat (cs ++ [c]) = 10 * digitsToNat cs + (c.toNat - 48) := by
  simp [digitsToNat, List.foldl_append]

/-- With enough fuel, `natToDigitsAux` round-trips through `digitsToNat`. -/
theorem natToDigitsAux_value (fuel : Nat) : ∀ (n : Nat), n < 10 ^ fuel →
    digitsToNat (natToDigitsAux fuel n) = n := by
  induction fuel with
  | zero =>
    intro n hn
    have : n = 0 := by simpa using hn
    subst this
    rfl
  | succ fuel ih =>
    intro n hn
    simp only [natToDigitsAux]
    by_cases hlt : n < 10
    · rw [if_pos hlt]
      have h4 := (digitChar_props n hlt).2.2.2.1
      simp [digitsToNat, h4]
    · rw [if_neg hlt]
      rw [digitsToNat_append]
      have hrec : n / 10 < 10 ^ fuel := by
        rw [pow_succ] at hn
        omega
      rw [ih _ hrec]
      have h4 := (digitChar_props (n % 10) (by omega)).2.2.2.1
      rw [h4]
      omega

/-- Every character of `natToDigits n` is a digit character. -/
theorem natToDigits_mem (n : Nat) : ∀ c ∈ natToDigits n,
    ∃ d, d < 10 ∧ c = Nat.digitChar d :=
  natToDigitsAux_mem _ _

/-- `natToDigits` round-trips through `digitsToNat`. -/
theorem natToDigits_value (n : Nat) : digitsToNat (natToDigits n) = n := by
  refine natToDigitsAux_value _ _ ?_
  calc n < 10 ^ n := Nat.lt_pow_self (by norm_num) n
    _ ≤ 10 ^ (n + 1) := Nat.pow_le_pow_right (by norm_num) (Nat.le_succ n)

/-- `natToDigits` never returns the empty list. -/
theorem natToDigits_ne_nil (n : Nat) : natToDigits n ≠ [] := by
  unfold natToDigits
  simp only [natToDigitsAux]
  by_cases hlt : n < 10
  · rw [if_pos hlt]
    simp
  · rw [if_neg hlt]
    simp

/-- Every character of `natToDigits n` satisfies `isDigit`. -/
theorem natToDigits_isDigit (n : Nat) : ∀ c ∈ natToDigits n, c.isDigit = true := by
  intro c hc
  rcases natToDigits_mem n c hc with ⟨d, hd, rfl⟩
  exact (digitChar_props d hd).1

/-- No character of `natToDigits n` is whitespace. -/
theorem natToDigits_not_ws (n : Nat) : ∀ c ∈ natToDigits n, c.isWhitespace = false := by
  intro c hc
  rcases natToDigits_mem n c hc with ⟨d, hd, rfl⟩
  exact (digitChar_props d hd).2.1

/-- `pyDigitsOkAux` accepts a pure digit tail after a digit. -/
theorem pyDigitsOkAux_of_digits (cs : List Char) : ∀ (prev : Char), prev.isDigit = true →
    (∀ c ∈ cs, c.isDigit = true) → pyDigitsOkAux prev cs = true := by
  induction cs with
  | nil =>
    intro prev hp _
    simpa [pyDigitsOkAux] using hp
  | cons c cs ih =>
    intro prev hp hall
    have hc : c.isDigit = true := hall c (by simp)
    have hne : c ≠ '_' := by
      intro he
      rw [he] at hc
      exact absurd hc (by decide)
    simp only [pyDigitsOkAux, if_neg hne]
    rw [hc, ih c hc (fun x hx => hall x (by simp [hx]))]
    rfl

/-- `pyDigitsOk` accepts any non-empty pure digit string. -/
theorem pyDigitsOk_of_digits (cs : List Char) (hne : cs ≠ [])
    (hall : ∀ c ∈ cs, c.isDigit = true) : pyDigitsOk cs = true := by
  cases cs with
  | nil => exact absurd rfl hne
  | cons c cs =>
    have hc := hall c (by simp)
    simp only [pyDigitsOk]
    rw [hc, pyDigitsOkAux_of_digits cs c hc (fun x hx => hall x (by simp [hx]))]
    rfl

/-- Filtering out underscores is the identity on digit strings. -/
theorem filter_underscore_of_digits (cs : List Char)
    (hall : ∀ c ∈ cs, c.isDigit = true) :
    cs.filter (fun c => c ≠ '_') = cs := by
  apply List.filter_eq_self.mpr
  intro c hc
  have hd := hall c hc
  simp only [ne_eq, decide_eq_true_eq]
  intro he
  rw [he] at hd
  exact absurd hd (by decide)

/-- `dropWhile` is the identity when the predicate fails everywhere. -/
theorem dropWhile_eq_self_of_forall {p : Char → Bool} (cs : List Char)
    (h : ∀ c ∈ cs, p c = false) : cs.dropWhile p = cs := by
  cases cs with
  | nil => rfl
  | cons c cs =>
    rw [List.dropWhile_cons, if_neg]
    simp [h c (by simp)]

/-- `stripChars` is the identity on whitespace-free strings. -/
theorem stripChars_eq_self (cs : List Char) (h : ∀ c ∈ cs, c.isWhitespace = false) :
    stripChars cs = cs := by
  unfold stripChars
  rw [dropWhile_eq_self_of_forall cs h,
    dropWhile_eq_self_of_forall cs.reverse (fun c hc => h c (List.mem_reverse.mp hc)),
    List.reverse_reverse]

/-- `pyStrip` is the identity on whitespace-free strings. -/
theorem pyStrip_eq_self (s : String) (h : ∀ c ∈ s.data, c.isWhitespace = false) :
    pyStrip s = s := by
  unfold pyStrip
  rw [stripChars_eq_self _ h]

/-- Data of `pyStrOfInt` for non-negative arguments. -/
theorem pyStrOfInt_data_nonneg (n : Int) (h : 0 ≤ n) :
    (pyStrOfInt n).data = natToDigits n.natAbs := by
  unfold pyStrOfInt
  rw [if_neg (by omega)]

/-- Data of `pyStrOfInt` for negative arguments. -/
theorem pyStrOfInt_data_neg (n : Int) (h : n < 0) :
    (pyStrOfInt n).data = '-' :: natToDigits n.natAbs := by
  unfold pyStrOfInt
  rw [if_pos h]

/-- No character of the decimal representation is whitespace. -/
theorem pyStrOfInt_not_ws (n : Int) :
    ∀ c ∈ (pyStrOfInt n).data, c.isWhitespace = false := by
  by_cases hn : n < 0
  · rw [pyStrOfInt_data_neg _ hn]
    intro c hc
    rcases List.mem_cons.mp hc with rfl | hc
    · decide
    · exact natToDigits_not_ws _ _ hc
  · rw [pyStrOfInt_data_nonneg _ (by omega)]
    exact natToDigits_not_ws _

/-- No character of the decimal representation is a dot. -/
theorem pyStrOfInt_no_dot (n : Int) : ∀ c ∈ (pyStrOfInt n).data, c ≠ '.' := by
  by_cases hn : n < 0
  · rw [pyStrOfInt_data_neg _ hn]
    intro c hc
    rcases List.mem_cons.mp hc with rfl | hc
    · decide
    · rcases natToDigits_mem _ c hc with ⟨d, hd, rfl⟩
      exact (digitChar_props d hd).2.2.2.2.1
  · rw [pyStrOfInt_data_nonneg _ (by omega)]
    intro c hc
    rcases natToDigits_mem _ c hc with ⟨d, hd, rfl⟩
    exact (digitChar_props d hd).2.2.2.2.1

/-- Parsing the decimal representation of an integer recovers the integer. -/
theorem pyIntOfChars_strOfInt (n : Int) : pyIntOfChars (pyStrOfInt n).data = some n := by
  by_cases hn : n < 0
  · rw [pyStrOfInt_data_neg _ hn]
    simp only [pyIntOfChars]
    rw [if_pos trivial,
      if_pos (pyDigitsOk_of_digits _ (natToDigits_ne_nil _) (natToDigits_isDigit _))]
    unfold digitsValue
    rw [filter_underscore_of_digits _ (natToDigits_isDigit _), natToDigits_value]
    congr 1
    omega
  · rw [pyStrOfInt_data_nonneg _ (by omega)]
    cases hds : natToDigits n.natAbs with
    | nil => exact absurd hds (natToDigits_ne_nil _)
    | cons c rest =>
      have hcd : ∃ d, d < 10 ∧ c = Nat.digitChar d := by
        apply natToDigits_mem n.natAbs
        rw [hds]
        simp
      rcases hcd with ⟨d, hd, rfl⟩
      have hdig : ∀ x ∈ Nat.digitChar d :: rest, x.isDigit = true := by
        rw [← hds]
        exact natToDigits_isDigit _
      simp only [pyIntOfChars]
      rw [if_neg (digitChar_props d hd).2.2.2.2.2.2.1,
        if_neg (digitChar_props d hd).2.2.2.2.2.2.2.1,
        if_pos (pyDigitsOk_of_digits _ (by simp) hdig)]
      unfold digitsValue
      rw [filter_underscore_of_digits _ hdig, ← hds, natToDigits_value]
      congr 1
      omega

/-- The blank/token rejection condition of `parse_year` is false for any
non-empty string whose lowered head is neither `n` nor a lone minus. -/
theorem parse_cond_false (ds : List Char) (hne : ds ≠ [])
    (hd : ∀ c, ds.head? = some c →
      c.toLower ≠ 'n' ∧ (c.toLower = '-' → ds.length ≠ 1)) :
    ¬(String.mk ds = "" ∨ pyLower (String.mk ds) ∈ yearTokens) := by
  rintro (he | hmem)
  · exact hne (congrArg String.data he)
  · cases ds with
    | nil => exact hne rfl
    | cons c rest =>
      rcases hd c rfl with ⟨hn, hlen⟩
      simp only [yearTokens, pyLower, List.mem_cons, List.mem_singleton,
        List.not_mem_nil, or_false] at hmem
      rcases hmem with h | h | h | h
      · have h2 := congrArg String.data h
        rw [(by decide : ("nan" : String).data = ['n', 'a', 'n'])] at h2
        simp only [List.map_cons] at h2
        exact hn (List.cons.injEq _ _ _ _ ▸ h2).1
      · have h2 := congrArg String.data h
        rw [(by decide : ("na" : String).data = ['n', 'a'])] at h2
        simp only [List.map_cons] at h2
        exact hn (List.cons.injEq _ _ _ _ ▸ h2).1
      · have h2 := congrArg String.data h
        rw [(by decide : ("none" : String).data = ['n', 'o', 'n', 'e'])] at h2
        simp only [List.map_cons] at h2
        exact hn (List.cons.injEq _ _ _ _ ▸ h2).1
      · have h2 := congrArg String.data h
        rw [(by decide : ("-" : String).data = ['-'])] at h2
        simp only [List.map_cons] at h2
        have h3 := (List.cons.injEq _ _ _ _ ▸ h2).1
        have h4 := (List.cons.injEq _ _ _ _ ▸ h2).2
        have h5 : rest = [] := by
          have := congrArg List.length h4
          simpa using this
        apply hlen h3
        rw [h5]
        rfl

/-- A dot-free string does not end in `.0`. -/
theorem not_suffix_dot0 (ds : List Char) (h : ∀ c ∈ ds, c ≠ '.') :
    List.isSuffixOf ['.', '0'] ds = false := by
  by_contra hcon
  rw [Bool.not_eq_false] at hcon
  have hsuf := (List.isSuffixOf_iff_suffix).mp hcon
  exact h '.' (hsuf.mem (by simp)) rfl

/-- Appending `.0` produces a string that ends in `.0`. -/
theorem suffix_dot0_append (ds : List Char) :
    List.isSuffixOf ['.', '0'] (ds ++ ['.', '0']) = true :=
  (List.isSuffixOf_iff_suffix).mpr ⟨ds, rfl⟩

/-- Dropping the last two characters undoes appending `.0`. -/
theorem dropLast_two_append (ds : List Char) :
    (ds ++ ['.', '0']).dropLast.dropLast = ds := by
  have h : ds ++ ['.', '0'] = (ds ++ ['.']) ++ ['0'] := by simp
  rw [h, List.dropLast_concat, List.dropLast_concat]

/-- `parse_year` on a whitespace-free, token-free, dot-free string returns
the parsed integer clamped to the accepted range. -/
theorem parse_year_mk_of (ds : List Char) (n : Int)
    (hws : ∀ c ∈ ds, c.isWhitespace = false)
    (hne : ds ≠ [])
    (hd : ∀ c, ds.head? = some c →
      c.toLower ≠ 'n' ∧ (c.toLower = '-' → ds.length ≠ 1))
    (hdot : ∀ c ∈ ds, c ≠ '.')
    (hparse : pyIntOfChars ds = some n) :
    parse_year (.vStr (String.mk ds))
      = if 1900 ≤ n ∧ n ≤ 2100 then some n else none := by
  simp only [parse_year, pyValueStr]
  rw [pyStrip_eq_self _ hws]
  rw [if_neg (parse_cond_false ds hne hd)]
  rw [not_suffix_dot0 ds hdot]
  rw [if_neg Bool.false_ne_true]
  simp only [pyInt]
  rw [stripChars_eq_self _ hws, hparse]

/-- `parse_year` on such a string with `.0` appended behaves identically. -/
theorem parse_year_mk_dot0_of (ds : List Char) (n : Int)
    (hws : ∀ c ∈ ds, c.isWhitespace = false)
    (hne : ds ≠ [])
    (hdn : ∀ c, ds.head? = some c → c.toLower ≠ 'n')
    (hparse : pyIntOfChars ds = some n) :
    parse_year (.vStr (String.mk (ds ++ ['.', '0'])))
      = if 1900 ≤ n ∧ n ≤ 2100 then some n else none := by
  have hws2 : ∀ c ∈ ds ++ ['.', '0'], c.isWhitespace = false := by
    intro c hc
    rcases List.mem_append.mp hc with hc | hc
    · exact hws c hc
    · rcases List.mem_cons.mp hc with rfl | hc
      · decide
      · rcases List.mem_singleton.mp hc with rfl
        decide
  have hne2 : ds ++ ['.', '0'] ≠ [] := by simp
  have hd2 : ∀ c, (ds ++ ['.', '0']).head? = some c →
      c.toLower ≠ 'n' ∧ (c.toLower = '-' → (ds ++ ['.', '0']).length ≠ 1) := by
    intro c hc
    cases ds with
    | nil => exact absurd rfl hne
    | cons a rest =>
      have hac : c = a := by
        rw [List.cons_append, List.head?_cons, Option.some.injEq] at hc
        exact hc.symm
      subst hac
      refine ⟨hdn c rfl, fun _ => ?_⟩
      simp
  simp only [parse_year, pyValueStr]
  rw [pyStrip_eq_self _ hws2]
  rw [if_neg (parse_cond_false _ hne2 hd2)]
  rw [suffix_dot0_append ds]
  rw [if_pos rfl]
  rw [dropLast_two_append]
  simp only [pyInt]
  rw [stripChars_eq_self _ hws, hparse]

/-- The decimal representation of an integer is never the empty string. -/
theorem pyStrOfInt_data_ne_nil (n : Int) : (pyStrOfInt n).data ≠ [] := by
  by_cases hn : n < 0
  · rw [pyStrOfInt_data_neg _ hn]
    simp
  · rw [pyStrOfInt_data_nonneg _ (by omega)]
    exact natToDigits_ne_nil _

/-- The head of a decimal representation is neither an `n` (lowered) nor a
lone minus sign. -/
theorem pyStrOfInt_head_props (n : Int) : ∀ c, (pyStrOfInt n).data.head? = some c →
    c.toLower ≠ 'n' ∧ (c.toLower = '-' → (pyStrOfInt n).data.length ≠ 1) := by
  intro c hc
  by_cases hn : n < 0
  · rw [pyStrOfInt_data_neg _ hn] at hc ⊢
    rw [List.head?_cons, Option.some.injEq] at hc
    subst hc
    refine ⟨by decide, fun _ => ?_⟩
    have := natToDigits_ne_nil n.natAbs
    simp only [List.length_cons, ne_eq]
    intro hlen
    apply this
    have : (natToDigits n.natAbs).length = 0 := by omega
    exact List.length_eq_zero.mp this
  · rw [pyStrOfInt_data_nonneg _ (by omega)] at hc ⊢
    have hmem : c ∈ natToDigits n.natAbs := List.mem_of_mem_head? (by simp [hc])
    rcases natToDigits_mem _ c hmem with ⟨d, hd, rfl⟩
    refine ⟨(digitChar_props d hd).2.2.2.2.2.2.2.2, fun hl => ?_⟩
    rw [(digitChar_props d hd).2.2.1] at hl
    exact absurd hl (digitChar_props d hd).2.2.2.2.2.2.1

/-- `parse_year` on the decimal string of any integer returns the integer
when it lies in the accepted range and nothing otherwise. -/
theorem parse_year_pyStrOfInt (n : Int) :
    parse_year (.vStr (pyStrOfInt n))
      = if 1900 ≤ n ∧ n ≤ 2100 then some n else none :=
  parse_year_mk_of (pyStrOfInt n).data n (pyStrOfInt_not_ws n)
    (pyStrOfInt_data_ne_nil n) (pyStrOfInt_head_props n) (pyStrOfInt_no_dot n)
    (pyIntOfChars_strOfInt n)

/-- `parse_year` on the decimal string with a trailing `.0` behaves the same. -/
theorem parse_year_pyStrOfInt_dot0 (n : Int) :
    parse_year (.vStr (pyStrOfInt n ++ ".0"))
      = if 1900 ≤ n ∧ n ≤ 2100 then some n else none := by
  have happ : pyStrOfInt n ++ ".0" = String.mk ((pyStrOfInt n).data ++ ['.', '0']) := by
    apply String.ext
    rw [String.data_append]
  rw [happ]
  exact parse_year_mk_dot0_of (pyStrOfInt n).data n (pyStrOfInt_not_ws n)
    (pyStrOfInt_data_ne_nil n) (fun c hc => (pyStrOfInt_head_props n c hc).1)
    (pyIntOfChars_strOfInt n)

/-- An integer cell parses exactly like its decimal string. -/
theorem parse_year_vInt (n : Int) :
    parse_year (.vInt n) = parse_year (.vStr (pyStrOfInt n)) := rfl

/-- Every character accepted by `pyDigitsOkAux` is a digit or an underscore. -/
theorem pyDigitsOkAux_mem (cs : List Char) : ∀ (prev : Char),
    pyDigitsOkAux prev cs = true → ∀ c ∈ cs, c.isDigit = true ∨ c = '_' := by
  induction cs with
  | nil =>
    intro prev _ c hc
    simp at hc
  | cons a rest ih =>
    intro prev h c hc
    by_cases ha : a = '_'
    · rw [pyDigitsOkAux, if_pos ha, Bool.and_eq_true] at h
      rcases List.mem_cons.mp hc with rfl | hc
      · exact Or.inr ha
      · exact ih a h.2 c hc
    · rw [pyDigitsOkAux, if_neg ha, Bool.and_eq_true] at h
      rcases List.mem_cons.mp hc with rfl | hc
      · exact Or.inl h.1
      · exact ih a h.2 c hc

/-- Every character of a `pyDigitsOk` string is a digit or an underscore. -/
theorem pyDigitsOk_mem (cs : List Char) (h : pyDigitsOk cs = true) :
    ∀ c ∈ cs, c.isDigit = true ∨ c = '_' := by
  cases cs with
  | nil => intro c hc; simp at hc
  | cons a rest =>
    rw [pyDigitsOk, Bool.and_eq_true] at h
    intro c hc
    rcases List.mem_cons.mp hc with rfl | hc
    · exact Or.inl h.1
    · exact pyDigitsOkAux_mem rest a h.2 c hc

/-- An element on which the predicate fails survives `dropWhile`. -/
theorem mem_dropWhile_of_not {p : Char → Bool} {c : Char} (hp : p c = false) :
    ∀ {cs : List Char}, c ∈ cs → c ∈ cs.dropWhile p := by
  intro cs hc
  induction cs with
  | nil => simp at hc
  | cons a rest ih =>
    by_cases ha : p a = true
    · rw [List.dropWhile_cons, if_pos ha]
      rcases List.mem_cons.mp hc with rfl | hc
      · rw [ha] at hp; exact absurd hp (by simp)
      · exact ih hc
    · rw [List.dropWhile_cons, if_neg ha]
      exact hc

/-- A non-whitespace element survives `stripChars`. -/
theorem mem_stripChars_of_not_ws {c : Char} {cs : List Char} (hc : c ∈ cs)
    (hws : c.isWhitespace = false) : c ∈ stripChars cs := by
  unfold stripChars
  rw [List.mem_reverse]
  exact mem_dropWhile_of_not hws
    (List.mem_reverse.mpr (mem_dropWhile_of_not hws hc))

/-- A signed digit string never contains a dot. -/
theorem signedDigits_no_dot {cs : List Char} {y : Int} (h : signedDigits cs y) :
    '.' ∉ cs := by
  rcases h with ⟨digits, hok, hshape⟩
  have hdig : '.' ∉ digits := by
    intro hmem
    rcases pyDigitsOk_mem digits hok '.' hmem with hd | hd
    · exact absurd hd (by decide)
    · exact absurd hd (by decide)
  rcases hshape with ⟨hc | hc, _⟩ | ⟨hc, _⟩ <;> rw [hc]
  · exact hdig
  · intro hmem
    rcases List.mem_cons.mp hmem with he | hmem
    · exact absurd he (by decide)
    · exact hdig hmem
  · intro hmem
    rcases List.mem_cons.mp hmem with he | hmem
    · exact absurd he (by decide)
    · exact hdig hmem

/-- `pyIntOfChars` accepts every signed digit string with its value. -/
theorem pyIntOfChars_of_signedDigits (cs : List Char) (y : Int)
    (h : signedDigits cs y) : pyIntOfChars cs = some y := by
  rcases h with ⟨digits, hok, hshape⟩
  have hne : digits ≠ [] := by
    intro he
    rw [he] at hok
    exact absurd hok (by decide)
  rcases hshape with ⟨hc | hc, hv⟩ | ⟨hc, hv⟩
  · rw [hc, hv]
    cases digits with
    | nil => exact absurd rfl hne
    | cons d rest =>
      have hd : d.isDigit = true := by
        rw [pyDigitsOk, Bool.and_eq_true] at hok
        exact hok.1
      have hdm : d ≠ '-' := by
        intro he; rw [he] at hd; exact absurd hd (by decide)
      have hdp : d ≠ '+' := by
        intro he; rw [he] at hd; exact absurd hd (by decide)
      simp only [pyIntOfChars]
      rw [if_neg hdm, if_neg hdp, if_pos hok]
  · rw [hc, hv]
    simp only [pyIntOfChars]
    rw [if_neg (show ¬(('+' : Char) = '-') by decide), if_pos hok, if_pos trivial]
  · rw [hc, hv]
    simp only [pyIntOfChars]
    rw [if_pos trivial, if_pos hok]

/-- Everything `pyIntOfChars` accepts is a signed digit string of its value. -/
theorem signedDigits_of_pyIntOfChars (cs : List Char) (y : Int)
    (h : pyIntOfChars cs = some y) : signedDigits cs y := by
  cases cs with
  | nil => exact absurd h (by simp [pyIntOfChars])
  | cons c rest =>
    simp only [pyIntOfChars] at h
    by_cases hm : c = '-'
    · rw [if_pos hm] at h
      by_cases hok : pyDigitsOk rest = true
      · rw [if_pos hok, Option.some.injEq] at h
        exact ⟨rest, hok, Or.inr ⟨by rw [hm], h.symm⟩⟩
      · rw [if_neg hok] at h
        exact absurd h (by simp)
    · rw [if_neg hm] at h
      by_cases hp : c = '+'
      · rw [if_pos hp] at h
        by_cases hok : pyDigitsOk rest = true
        · rw [if_pos hok, Option.some.injEq] at h
          exact ⟨rest, hok, Or.inl ⟨Or.inr (by rw [hp]), h.symm⟩⟩
        · rw [if_neg hok] at h
          exact absurd h (by simp)
      · rw [if_neg hp] at h
        by_cases hok : pyDigitsOk (c :: rest) = true
        · rw [if_pos hok, Option.some.injEq] at h
          exact ⟨c :: rest, hok, Or.inl ⟨Or.inl rfl, h.symm⟩⟩
        · rw [if_neg hok] at h
          exact absurd h (by simp)

/-- Full characterization of the year parser on strings: it extracts `y`
exactly from the in-range numeric texts described by `pyNumericStr`; every
other string — in particular any non-numeric text — gives no value. -/
theorem parse_year_vStr_iff (s : String) (y : Int) :
    parse_year (.vStr s) = some y ↔ (1900 ≤ y ∧ y ≤ 2100 ∧ pyNumericStr s y) := by
  constructor
  · intro h
    simp only [parse_year, pyValueStr, pyStrip] at h
    split at h
    · exact absurd h (by simp)
    · rename_i hcond
      push_neg at hcond
      obtain ⟨hblank, htok⟩ := hcond
      have hne : stripChars s.data ≠ [] := by
        intro he
        apply hblank
        rw [he]
      by_cases hsf : List.isSuffixOf ['.', '0'] (stripChars s.data) = true
      · rw [if_pos hsf] at h
        obtain ⟨pre, hpre⟩ := List.isSuffixOf_iff_suffix.mp hsf
        have hdrop : (stripChars s.data).dropLast.dropLast = pre := by
          rw [← hpre, dropLast_two_append]
        rw [hdrop] at h
        simp only [pyInt] at h
        split at h
        · exact absurd h (by simp)
        · rename_i year hyear
          split at h
          · rename_i hrange
            rw [Option.some.injEq] at h
            subst h
            exact ⟨hrange.1, hrange.2, hne, htok, pre, Or.inr hpre.symm,
              signedDigits_of_pyIntOfChars _ _ hyear⟩
          · exact absurd h (by simp)
      · rw [if_neg hsf] at h
        simp only [pyInt] at h
        split at h
        · exact absurd h (by simp)
        · rename_i year hyear
          split at h
          · rename_i hrange
            rw [Option.some.injEq] at h
            subst h
            exact ⟨hrange.1, hrange.2, hne, htok, stripChars s.data, Or.inl rfl,
              signedDigits_of_pyIntOfChars _ _ hyear⟩
          · exact absurd h (by simp)
  · rintro ⟨hy1, hy2, hne, htok, core, hcase, hsd⟩
    simp only [parse_year, pyValueStr, pyStrip]
    rw [if_neg (by
      rintro (h1 | h2)
      · exact hne (congrArg String.data h1)
      · exact htok h2)]
    rcases hcase with hc | hc
    · have hsf : List.isSuffixOf ['.', '0'] (stripChars s.data) = false := by
        rw [hc]
        by_contra hcon
        rw [Bool.not_eq_false] at hcon
        obtain ⟨pre, hpre⟩ := List.isSuffixOf_iff_suffix.mp hcon
        have hdot_mem : '.' ∈ core := by
          rw [← hpre]
          simp
        exact signedDigits_no_dot hsd
          (mem_stripChars_of_not_ws hdot_mem (by decide))
      rw [if_neg (show ¬(List.isSuffixOf ['.', '0'] (stripChars s.data) = true) by
        simp [hsf])]
      rw [hc]
      simp only [pyInt]
      rw [pyIntOfChars_of_signedDigits _ _ hsd]
      show (if 1900 ≤ y ∧ y ≤ 2100 then some y else none) = some y
      rw [if_pos ⟨hy1, hy2⟩]
    · rw [hc, if_pos (suffix_dot0_append core), dropLast_two_append]
      simp only [pyInt]
      rw [pyIntOfChars_of_signedDigits _ _ hsd]
      show (if 1900 ≤ y ∧ y ≤ 2100 then some y else none) = some y
      rw [if_pos ⟨hy1, hy2⟩]

/-- Claim C9: the year parser is total (never raises); it accepts integers,
decimal strings and decimal strings with a trailing `.0`, yielding the value
exactly when it lies in `[1900, 2100]`; it returns no value — and never zero —
for blank input and for the tokens `nan`/`na`/`none`/`-` case-insensitively;
and a string yields a value if and only if it is a numeric text in the sense
of `pyNumericStr` with an in-range value, so every non-numeric string yields
no value. -/
theorem C9_parse_year_contract :
    (∀ v, parse_year v = none
        ∨ ∃ y, parse_year v = some y ∧ 1900 ≤ y ∧ y ≤ 2100 ∧ y ≠ 0)
    ∧ (∀ n : Int, parse_year (.vInt n)
        = if 1900 ≤ n ∧ n ≤ 2100 then some n else none)
    ∧ (∀ n : Int, parse_year (.vStr (pyStrOfInt n))
        = if 1900 ≤ n ∧ n ≤ 2100 then some n else none)
    ∧ (∀ n : Int, parse_year (.vStr (pyStrOfInt n ++ ".0"))
        = if 1900 ≤ n ∧ n ≤ 2100 then some n else none)
    ∧ (∀ s, pyStrip s = "" → parse_year (.vStr s) = none)
    ∧ (∀ s, pyLower (pyStrip s) ∈ yearTokens → parse_year (.vStr s) = none)
    ∧ (∀ s y, parse_year (.vStr s) = some y
        ↔ (1900 ≤ y ∧ y ≤ 2100 ∧ pyNumericStr s y)) := by
  refine ⟨?_, ?_, ?_, ?_, ?_, ?_, ?_⟩
  · intro v
    cases hv : parse_year v with
    | none => exact Or.inl rfl
    | some y =>
      have hb := parse_year_some_range v y hv
      exact Or.inr ⟨y, rfl, hb.1, hb.2, by omega⟩
  · intro n
    rw [parse_year_vInt]
    exact parse_year_pyStrOfInt n
  · exact parse_year_pyStrOfInt
  · exact parse_year_pyStrOfInt_dot0
  · intro s h
    simp only [parse_year, pyValueStr]
    rw [if_pos (Or.inl h)]
  · intro s h
    simp only [parse_year, pyValueStr]
    rw [if_pos (Or.inr h)]
  · exact parse_year_vStr_iff

/-- Witness for C9 at concrete inputs: a blank string, a cased token, an
in-range integer, an out-of-range integer, a `.0`-suffixed string, and a
non-canonical numeric string accepted through the characterization. -/
theorem C9_parse_year_contract_witness :
    parse_year (.vStr " ") = none
    ∧ parse_year (.vStr "NaN") = none
    ∧ parse_year (.vInt 2021)
        = (if 1900 ≤ (2021 : Int) ∧ (2021 : Int) ≤ 2100 then some 2021 else none)
    ∧ parse_year (.vInt 1899)
        = (if 1900 ≤ (1899 : Int) ∧ (1899 : Int) ≤ 2100 then some 1899 else none)
    ∧ parse_year (.vStr (pyStrOfInt 2021 ++ ".0"))
        = (if 1900 ≤ (2021 : Int) ∧ (2021 : Int) ≤ 2100 then some 2021 else none)
    ∧ parse_year (.vStr " +2_021 ") = some 2021 :=
  ⟨C9_parse_year_contract.2.2.2.2.1 " " (by decide),
   C9_parse_year_contract.2.2.2.2.2.1 "NaN" (by decide),
   C9_parse_year_contract.2.1 2021,
   C9_parse_year_contract.2.1 1899,
   C9_parse_year_contract.2.2.2.1 2021,
   (C9_parse_year_contract.2.2.2.2.2.2 " +2_021 " 2021).mpr
     ⟨by decide, by decide, by decide,
      by decide,
      ['+', '2', '_', '0', '2', '1'], Or.inl (by decide),
      ['2', '_', '0', '2', '1'], by decide,
      Or.inl ⟨Or.inr (by decide), by decide⟩⟩⟩
